import Mathlib

/-!
Verification development for the expr-cpp interpreter: a shallow embedding of
the tokenizer (src/src/tokenizer.cpp), parser (src/src/parser.cpp), runtime
value model (src/include/object.h, src/src/object.cpp) and tree-walking
evaluator (src/src/eval.cpp), together with theorems about the embedded
definitions.

Representation choices:
* `std::string_view` input becomes `List Char`; token text becomes `String`.
* `int64_t` becomes `Int` (no claim exercises overflow); C++ integer division
  and modulo truncate toward zero, which is `Int.tdiv` / `Int.tmod`.
* C++ exceptions become the `Except` error component of each result; because a
  C++ exception leaves the evaluation context exactly as it was at the throw
  point, evaluation results are pairs `(Except Err α) × Context` where the
  context is returned on the error path as well.
* C++ undefined behaviour that the source can actually reach (integer division
  by zero, dereferencing the null lookahead token) is modelled by dedicated
  outcomes (`Err.undefinedBehavior`, `ParseErr.nullDeref`) distinct from the
  typed errors the source throws deliberately.
* Recursion in the parser and the evaluator is fuel-indexed; exhausted fuel is
  a dedicated outcome distinct from every result the source can produce.
-/

namespace ExprCpp

/-! ## Tokens (src/include/tokenizer.h) -/

inductive TokenKind where
  | eof
  | identifier
  | nullKw
  | trueKw
  | falseKw
  | integer
  | float
  | string
  | letKw
  | fn
  | ifKw
  | elseKw
  | forKw
  | breakKw
  | continueKw
  | returnKw
  | comma
  | semicolon
  | colon
  | lparen
  | rparen
  | lbrace
  | rbrace
  | lbracket
  | rbracket
  | dot
  | plus
  | minus
  | star
  | slash
  | percent
  | bang
  | equals
  | notEquals
  | greaterThan
  | greaterThanOrEqual
  | lessThan
  | lessThanOrEqual
  | logicAnd
  | logicOr
  | assign
  | increase
  | decrease
  | envVariable
  | invalid
deriving DecidableEq, Repr

structure Token where
  kind : TokenKind
  text : String
deriving DecidableEq, Repr

/-- The `KEYWORDS` table of tokenizer.h. -/
def keyword_kind (s : String) : Option TokenKind :=
  match s with
  | "null" => some .nullKw
  | "true" => some .trueKw
  | "false" => some .falseKw
  | "let" => some .letKw
  | "fn" => some .fn
  | "if" => some .ifKw
  | "else" => some .elseKw
  | "for" => some .forKw
  | "break" => some .breakKw
  | "continue" => some .continueKw
  | "return" => some .returnKw
  | _ => none

/-- The `PUNCTUATIONS` table of tokenizer.h. -/
def punctuation_kind (c : Char) : Option TokenKind :=
  match c with
  | ',' => some .comma
  | ';' => some .semicolon
  | '.' => some .dot
  | '{' => some .lbrace
  | '[' => some .lbracket
  | '(' => some .lparen
  | '}' => some .rbrace
  | ']' => some .rbracket
  | ')' => some .rparen
  | ':' => some .colon
  | _ => none

/-! ## Tokenizer (src/src/tokenizer.cpp)

The tokenizer state is the remaining input (`m_input`); each `eat_*` function
returns the produced token and the remaining input after it. -/

/-- `Tokenizer::eat_while`: the consumed span and the remaining input. -/
def eat_while (p : Char → Bool) : List Char → List Char × List Char
  | [] => ([], [])
  | c :: rest =>
    if p c then
      let (s, r) := eat_while p rest
      (c :: s, r)
    else ([], c :: rest)

/-- `Tokenizer::eat_identifier`: span of alphanumeric/underscore characters,
then an exact-match lookup against the keyword table. -/
def eat_identifier (input : List Char) : Token × List Char :=
  let (s, rest) := eat_while (fun ch => ch.isAlphanum || ch = '_') input
  let text : String := ⟨s⟩
  match keyword_kind text with
  | some k => (⟨k, text⟩, rest)
  | none => (⟨.identifier, text⟩, rest)

/-- `Tokenizer::eat_env_variable`: `$` followed by an identifier that must not
be keyword-shaped; otherwise an Invalid token spanning what was consumed. -/
def eat_env_variable (input : List Char) : Token × List Char :=
  match input with
  | [] => (⟨.invalid, ""⟩, [])
  | dollar :: rest =>
    match rest with
    | [] => (⟨.invalid, ⟨[dollar]⟩⟩, [])
    | c :: _ =>
      if c = '_' || c.isAlpha then
        let (s, rest') := eat_while (fun ch => ch.isAlphanum || ch = '_') rest
        match keyword_kind ⟨s⟩ with
        | some _ => (⟨.invalid, ⟨dollar :: s⟩⟩, rest')
        | none => (⟨.envVariable, ⟨dollar :: s⟩⟩, rest')
      else (⟨.invalid, ⟨[dollar]⟩⟩, rest)

/-- `Tokenizer::eat_number`: a digit span, optionally `.` and a second digit
span, making an Integer or Float token. -/
def eat_number (input : List Char) : Token × List Char :=
  let (ds, rest) := eat_while Char.isDigit input
  match rest with
  | '.' :: rest2 =>
    let (ds2, rest3) := eat_while Char.isDigit rest2
    (⟨.float, ⟨ds ++ '.' :: ds2⟩⟩, rest3)
  | _ => (⟨.integer, ⟨ds⟩⟩, rest)

/-- The scanning loop of `Tokenizer::eat_string` after the opening quote:
an unescaped `"` ends the token; a backslash toggles the escape flag; every
other character clears it.  `acc` is the text consumed so far (opening quote
included).  `none` means the input ran out (unterminated string). -/
def eat_string_aux (escaped : Bool) (acc : List Char) :
    List Char → Option (List Char × List Char)
  | [] => none
  | c :: rest =>
    if c = '"' then
      if !escaped then some (acc ++ [c], rest)
      else eat_string_aux false (acc ++ [c]) rest
    else if c = '\\' then eat_string_aux (!escaped) (acc ++ [c]) rest
    else eat_string_aux false (acc ++ [c]) rest

/-- `Tokenizer::eat_string`: scan to an unescaped closing quote; the token text
spans both quotes.  An unterminated string consumes the rest of the input and
yields an Invalid token whose text is the fixed message of the source. -/
def eat_string (input : List Char) : Token × List Char :=
  match input with
  | [] => (⟨.invalid, "Unclosed string literal"⟩, [])
  | q :: rest =>
    match eat_string_aux false [q] rest with
    | some (text, r) => (⟨.string, ⟨text⟩⟩, r)
    | none => (⟨.invalid, "Unclosed string literal"⟩, [])

/-- `Tokenizer::eat_punctuation`: single-character table lookup first, then the
multi-character operator switch with one character of lookahead.  The default
case produces an Invalid token without consuming anything, exactly as the
source does (`make_token(Invalid, start)` with an empty span). -/
def eat_punctuation (input : List Char) : Token × List Char :=
  match input with
  | [] => (⟨.invalid, ""⟩, [])
  | c :: rest =>
    match punctuation_kind c with
    | some k => (⟨k, ⟨[c]⟩⟩, rest)
    | none =>
      match c, rest with
      | '!', '=' :: r => (⟨.notEquals, "!="⟩, r)
      | '!', r => (⟨.bang, "!"⟩, r)
      | '=', '=' :: r => (⟨.equals, "=="⟩, r)
      | '=', r => (⟨.assign, "="⟩, r)
      | '>', '=' :: r => (⟨.greaterThanOrEqual, ">="⟩, r)
      | '>', r => (⟨.greaterThan, ">"⟩, r)
      | '<', '=' :: r => (⟨.lessThanOrEqual, "<="⟩, r)
      | '<', r => (⟨.lessThan, "<"⟩, r)
      | '+', '+' :: r => (⟨.increase, "++"⟩, r)
      | '+', r => (⟨.plus, "+"⟩, r)
      | '-', '-' :: r => (⟨.decrease, "--"⟩, r)
      | '-', r => (⟨.minus, "-"⟩, r)
      | '*', r => (⟨.star, "*"⟩, r)
      | '/', r => (⟨.slash, "/"⟩, r)
      | '%', r => (⟨.percent, "%"⟩, r)
      | '&', '&' :: r => (⟨.logicAnd, "&&"⟩, r)
      | '&', r => (⟨.invalid, "&"⟩, r)
      | '|', '|' :: r => (⟨.logicOr, "||"⟩, r)
      | '|', r => (⟨.invalid, "|"⟩, r)
      | _, r => (⟨.invalid, ""⟩, c :: r)

/-- `Tokenizer::next`: skip whitespace, then dispatch on the first character:
`$` to env-variable, digit to number, letter/underscore to identifier-or-
keyword, `"` to string, otherwise punctuation.  Exhausted input is Eof. -/
def Tokenizer.next : List Char → Token × List Char
  | [] => (⟨.eof, ""⟩, [])
  | c :: rest =>
    if c = ' ' || c = '\t' || c = '\n' || c = '\r' then Tokenizer.next rest
    else if c = '$' then eat_env_variable (c :: rest)
    else if c.isDigit then eat_number (c :: rest)
    else if c.isAlpha || c = '_' then eat_identifier (c :: rest)
    else if c = '"' then eat_string (c :: rest)
    else eat_punctuation (c :: rest)

/-! ## AST (src/include/ast.h) -/

inductive Operator where
  | invalid
  | add
  | subtract
  | multiply
  | divide
  | modulo
  | power
  | equals
  | notEquals
  | lessThan
  | lessThanOrEqual
  | greaterThan
  | greaterThanOrEqual
  | logicAnd
  | logicOr
  | not
  | assign
  | access
  | increase
  | decrease
  | call
deriving DecidableEq, Repr

/-- The `Precedence` enumeration; `toNat` is the underlying enum value used by
the `<=` comparison in `Parser::parse_expression_precedence`. -/
inductive Precedence where
  | lowest
  | assign
  | logicOr
  | logicAnd
  | equality
  | comparison
  | term
  | factor
  | prefixOp
  | postfixOp
  | call
  | index
  | access
  | primary
deriving DecidableEq, Repr

def Precedence.toNat : Precedence → Nat
  | .lowest => 0
  | .assign => 1
  | .logicOr => 2
  | .logicAnd => 3
  | .equality => 4
  | .comparison => 5
  | .term => 6
  | .factor => 7
  | .prefixOp => 8
  | .postfixOp => 9
  | .call => 10
  | .index => 11
  | .access => 12
  | .primary => 13

inductive Literal where
  | nullLit
  | booleanLit (b : Bool)
  | integerLit (i : Int)
  | floatLit (f : Float)
  | stringLit (s : String)

inductive Expression where
  | literal (l : Literal)
  | variableExpr (name : String)
  | envVariableExpr (name : String)
  | arrayExpr (elements : List Expression)
  | indexExpr (object index : Expression)
  | callExpr (callee : Expression) (args : List Expression)
  | binaryExpr (op : Operator) (left right : Expression)
  | prefixExpr (op : Operator) (expr : Expression)
  | postfixExpr (op : Operator) (expr : Expression)

inductive Statement where
  | emptyStmt
  | letStmt (name : String) (value : Option Expression)
  | exprStmt (expr : Expression)
  | blockStmt (statements : List Statement)
  | ifStmt (condition : Expression) (thenBranch : Statement)
      (elseBranch : Option Statement)
  | forStmt (initializer : Option Statement) (condition : Option Expression)
      (increment : Option Expression) (body : Statement)
  | returnStmt (value : Option Expression)
  | breakStmt
  | continueStmt
  | fnStmt (name : String) (params : List String) (body : Statement)

/-- `Program`: ordered top-level statements plus the function table.  The table
is an association list; `Parser::parse` fills it with
`std::unordered_map::insert`, which keeps the existing entry on a key
collision, so insertion is keep-first. -/
structure Program where
  statements : List Statement
  functions : List (String × (List String × Statement))

/-! ## Parser (src/src/parser.cpp) -/

/-- Digit-string to number, as `std::stoll` behaves on the all-digit spans the
tokenizer produces for Integer tokens. -/
def stoll (s : String) : Int :=
  (s.toList.foldl (fun n c => n * 10 + (c.toNat - '0'.toNat)) 0 : Nat)

/-- `std::stod` on the `digits[.digits]` spans the tokenizer produces for
Float tokens: mantissa digits scaled by the number of fractional digits. -/
def stod (s : String) : Float :=
  match s.toList.splitOn '.' with
  | [i] => Float.ofNat ((stoll ⟨i⟩).toNat)
  | i :: f :: _ => Float.ofScientific ((stoll ⟨i ++ f⟩).toNat) true f.length
  | [] => 0

/-- The escape-processing loop in the String case of `Parser::parse_primary`.
After handling a backslash escape the source falls through to the unconditional
`result.push_back(*c)` at the bottom of the loop body, so the character after
the backslash is pushed again after the escape's own output.  A lone trailing
backslash dereferences the end iterator in the source (undefined behaviour);
it cannot reach this loop from a tokenizer-produced String token, and is
modelled as producing nothing. -/
def process_string_escapes : List Char → List Char
  | [] => []
  | c :: rest =>
    if c = '\\' then
      match rest with
      | [] => []
      | d :: rest' =>
        let escOut : List Char :=
          if d = 'n' then ['\n']
          else if d = 't' then ['\t']
          else if d = 'r' then ['\r']
          else if d = '\\' then ['\\']
          else ['\\', d]
        escOut ++ d :: process_string_escapes rest'
    else c :: process_string_escapes rest

/-- `get_precedence` from parser.cpp.  (The literal-token case of the source
names `TokenKind::Undefined` for the null keyword token.) -/
def get_precedence (kind : TokenKind) : Precedence :=
  match kind with
  | .assign => .assign
  | .logicOr => .logicOr
  | .logicAnd => .logicAnd
  | .equals | .notEquals => .equality
  | .greaterThan | .greaterThanOrEqual | .lessThan | .lessThanOrEqual => .comparison
  | .plus | .minus => .term
  | .star | .slash | .percent => .factor
  | .increase | .decrease => .postfixOp
  | .lparen => .call
  | .lbracket => .index
  | .dot => .access
  | .nullKw | .trueKw | .falseKw | .integer | .float | .string | .identifier => .primary
  | _ => .lowest

/-- The `BINARY_OPERATORS` table and `binary_operator` from parser.cpp. -/
def binary_operator (kind : TokenKind) : Operator :=
  match kind with
  | .plus => .add
  | .minus => .subtract
  | .star => .multiply
  | .slash => .divide
  | .percent => .modulo
  | .equals => .equals
  | .notEquals => .notEquals
  | .greaterThan => .greaterThan
  | .greaterThanOrEqual => .greaterThanOrEqual
  | .lessThan => .lessThan
  | .lessThanOrEqual => .lessThanOrEqual
  | .logicAnd => .logicAnd
  | .logicOr => .logicOr
  | .assign => .assign
  | .dot => .access
  | _ => .invalid

/-- Parse failures.  The source throws `std::runtime_error`; the `nullDeref`
outcome marks the paths where the source formats a diagnostic through the null
lookahead pointer or switches on it (undefined behaviour), and `outOfFuel`
marks exhausted recursion fuel. -/
inductive ParseErr where
  | outOfFuel
  | nullDeref
  | expected (kind : TokenKind) (got : Token)
  | expectedSeparator (separator endKind : TokenKind)
  | msg (s : String)
deriving DecidableEq, Repr

/-- The parser state: one token of lookahead (`m_peek_token`, null once the
tokenizer reports Eof) plus the tokenizer's remaining input. -/
structure Parser where
  peek : Option Token
  input : List Char
deriving DecidableEq, Repr

/-- The `Parser(std::string_view)` constructor: pull the first token. -/
def mkParser (input : List Char) : Parser :=
  let (t, rest) := Tokenizer.next input
  ⟨if t.kind = .eof then none else some t, rest⟩

/-- `Parser::next_token`: return the current lookahead and pull the next. -/
def Parser.next_token (p : Parser) : Option Token × Parser :=
  let (t, rest) := Tokenizer.next p.input
  (p.peek, ⟨if t.kind = .eof then none else some t, rest⟩)

/-- `Parser::consum_token`: advance and require the given kind.  When the
lookahead was already null the source formats its message through the null
pointer. -/
def Parser.consum_token (p : Parser) (kind : TokenKind) :
    Except ParseErr (Token × Parser) :=
  match p.next_token with
  | (none, _) => .error .nullDeref
  | (some t, p') =>
    if t.kind = kind then .ok (t, p') else .error (.expected kind t)

/-- `Parser::parse_identifier`. -/
def Parser.parse_identifier (p : Parser) : Except ParseErr (String × Parser) := do
  let (t, p') ← p.consum_token .identifier
  return (t.text, p')

/-- `Parser::parse_break_statement`. -/
def Parser.parse_break_statement (p : Parser) :
    Except ParseErr (Statement × Parser) := do
  let (_, p1) ← p.consum_token .breakKw
  let (_, p2) ← p1.consum_token .semicolon
  return (.breakStmt, p2)

/-- `Parser::parse_continue_statement`. -/
def Parser.parse_continue_statement (p : Parser) :
    Except ParseErr (Statement × Parser) := do
  let (_, p1) ← p.consum_token .continueKw
  let (_, p2) ← p1.consum_token .semicolon
  return (.continueStmt, p2)

/-- `std::unordered_map::insert` into the function table: keep-first. -/
def fn_table_insert (fns : List (String × (List String × Statement)))
    (name : String) (entry : List String × Statement) :
    List (String × (List String × Statement)) :=
  if fns.any (fun f => f.1 == name) then fns else fns ++ [(name, entry)]

mutual

/-- The collection loop of `Parser::parse`: statements in order, function
declarations routed into the table instead. -/
def parse_loop : Nat → Parser → List Statement →
    List (String × (List String × Statement)) → Except ParseErr Program
  | 0, _, _, _ => .error .outOfFuel
  | fuel + 1, p, stmts, fns =>
    match p.peek with
    | none => .ok ⟨stmts.reverse, fns⟩
    | some _ => do
      let (stmt, p') ← parse_statement fuel p
      match stmt with
      | .fnStmt name params body =>
        parse_loop fuel p' stmts (fn_table_insert fns name (params, body))
      | s => parse_loop fuel p' (s :: stmts) fns

/-- `Parser::parse_statement`: dispatch on the lookahead kind.  The source
switches on `m_peek_token->kind`, so a null lookahead is dereferenced.  The
Semicolon case returns an `EmptyStatement` without consuming the token,
exactly as the source does. -/
def parse_statement : Nat → Parser → Except ParseErr (Statement × Parser)
  | 0, _ => .error .outOfFuel
  | fuel + 1, p =>
    match p.peek with
    | none => .error .nullDeref
    | some t =>
      match t.kind with
      | .fn => parse_fn_statement fuel p
      | .letKw => parse_let_statement fuel p
      | .ifKw => parse_if_statement fuel p
      | .forKw => parse_for_statement fuel p
      | .returnKw => parse_return_statement fuel p
      | .breakKw => p.parse_break_statement
      | .continueKw => p.parse_continue_statement
      | .lbrace => parse_block_statement fuel p
      | .semicolon => .ok (.emptyStmt, p)
      | _ => do
        let (expr, p1) ← parse_expression fuel p
        let (_, p2) ← p1.consum_token .semicolon
        return (.exprStmt expr, p2)

/-- `Parser::parse_let_statement`: `let IDENT [= expr] ;`. -/
def parse_let_statement : Nat → Parser → Except ParseErr (Statement × Parser)
  | 0, _ => .error .outOfFuel
  | fuel + 1, p => do
    let (_, p1) ← p.consum_token .letKw
    match p1.next_token with
    | (none, _) => .error .nullDeref
    | (some t, p2) =>
      if t.kind ≠ .identifier then
        .error (.msg "Expected identifier for let statement")
      else do
        let name := t.text
        match p2.peek with
        | none => .error (.msg "Incomplete let statement")
        | some peek =>
          match peek.kind with
          | .assign => do
            let (_, p3) ← p2.consum_token .assign
            let (e, p4) ← parse_expression fuel p3
            let (_, p5) ← p4.consum_token .semicolon
            return (.letStmt name (some e), p5)
          | .semicolon => do
            let (_, p3) ← p2.consum_token .semicolon
            return (.letStmt name none, p3)
          | _ => .error (.msg "Expected expression for let statement")

/-- `Parser::parse_if_statement`. -/
def parse_if_statement : Nat → Parser → Except ParseErr (Statement × Parser)
  | 0, _ => .error .outOfFuel
  | fuel + 1, p => do
    let (_, p1) ← p.consum_token .ifKw
    let (_, p2) ← p1.consum_token .lparen
    let (cond, p3) ← parse_expression fuel p2
    let (_, p4) ← p3.consum_token .rparen
    let (thenB, p5) ← parse_block_statement fuel p4
    match p5.peek with
    | some t =>
      if t.kind = .elseKw then do
        let (_, p6) ← p5.consum_token .elseKw
        let (elseB, p7) ← parse_statement fuel p6
        return (.ifStmt cond thenB (some elseB), p7)
      else return (.ifStmt cond thenB none, p5)
    | none => return (.ifStmt cond thenB none, p5)

/-- `Parser::parse_for_statement`: optional initializer statement, optional
condition and increment expressions, then a body statement. -/
def parse_for_statement : Nat → Parser → Except ParseErr (Statement × Parser)
  | 0, _ => .error .outOfFuel
  | fuel + 1, p => do
    let (_, p1) ← p.consum_token .forKw
    let (_, p2) ← p1.consum_token .lparen
    let (ini, p3) ←
      match p2.peek with
      | some t =>
        if t.kind = .semicolon then do
          let (_, p3) ← p2.consum_token .semicolon
          pure ((none : Option Statement), p3)
        else do
          let (s, p3) ← parse_statement fuel p2
          pure (some s, p3)
      | none => do
        let (s, p3) ← parse_statement fuel p2
        pure (some s, p3)
    let (cond, p4) ←
      match p3.peek with
      | some t =>
        if t.kind = .semicolon then pure ((none : Option Expression), p3)
        else do
          let (e, p4) ← parse_expression fuel p3
          pure (some e, p4)
      | none => do
        let (e, p4) ← parse_expression fuel p3
        pure (some e, p4)
    let (_, p5) ← p4.consum_token .semicolon
    let (incr, p6) ←
      match p5.peek with
      | some t =>
        if t.kind = .rparen then pure ((none : Option Expression), p5)
        else do
          let (e, p6) ← parse_expression fuel p5
          pure (some e, p6)
      | none => do
        let (e, p6) ← parse_expression fuel p5
        pure (some e, p6)
    let (_, p7) ← p6.consum_token .rparen
    let (body, p8) ← parse_statement fuel p7
    return (.forStmt ini cond incr body, p8)

/-- `Parser::parse_block_statement`. -/
def parse_block_statement : Nat → Parser → Except ParseErr (Statement × Parser)
  | 0, _ => .error .outOfFuel
  | fuel + 1, p => do
    let (_, p1) ← p.consum_token .lbrace
    let (stmts, p2) ← parse_block_loop fuel p1 []
    let (_, p3) ← p2.consum_token .rbrace
    return (.blockStmt stmts, p3)

/-- The statement-collection loop of `Parser::parse_block_statement`. -/
def parse_block_loop : Nat → Parser → List Statement →
    Except ParseErr (List Statement × Parser)
  | 0, _, _ => .error .outOfFuel
  | fuel + 1, p, acc =>
    match p.peek with
    | none => .ok (acc.reverse, p)
    | some t =>
      if t.kind = .rbrace then .ok (acc.reverse, p)
      else do
        let (s, p') ← parse_statement fuel p
        parse_block_loop fuel p' (s :: acc)

/-- `Parser::parse_return_statement`. -/
def parse_return_statement : Nat → Parser → Except ParseErr (Statement × Parser)
  | 0, _ => .error .outOfFuel
  | fuel + 1, p => do
    let (_, p1) ← p.consum_token .returnKw
    match p1.peek with
    | none => .error (.msg "Incomplete resturn statement")
    | some t =>
      if t.kind = .semicolon then do
        let (_, p2) ← p1.consum_token .semicolon
        return (.returnStmt none, p2)
      else do
        let (e, p2) ← parse_expression fuel p1
        let (_, p3) ← p2.consum_token .semicolon
        return (.returnStmt (some e), p3)

/-- `Parser::parse_fn_statement`. -/
def parse_fn_statement : Nat → Parser → Except ParseErr (Statement × Parser)
  | 0, _ => .error .outOfFuel
  | fuel + 1, p => do
    let (_, p1) ← p.consum_token .fn
    let (name, p2) ← p1.parse_identifier
    let (_, p3) ← p2.consum_token .lparen
    let (params, p4) ← parse_ident_list fuel .rparen .comma p3
    let (_, p5) ← p4.consum_token .rparen
    let (body, p6) ← parse_block_statement fuel p5
    return (.fnStmt name params body, p6)

/-- `Parser::parse_expression`: precedence climbing from `Lowest`. -/
def parse_expression : Nat → Parser → Except ParseErr (Expression × Parser)
  | 0, _ => .error .outOfFuel
  | fuel + 1, p => parse_expression_precedence fuel .lowest p

/-- `Parser::parse_expression_precedence`: a prefix expression, then the
operator-folding loop. -/
def parse_expression_precedence : Nat → Precedence → Parser →
    Except ParseErr (Expression × Parser)
  | 0, _, _ => .error .outOfFuel
  | fuel + 1, prec, p => do
    let (e, p') ← parse_prefix_expression fuel p
    parse_expr_loop fuel prec e p'

/-- The while-loop of `Parser::parse_expression_precedence`: fold in operators
whose precedence strictly exceeds the current one. -/
def parse_expr_loop : Nat → Precedence → Expression → Parser →
    Except ParseErr (Expression × Parser)
  | 0, _, _, _ => .error .outOfFuel
  | fuel + 1, prec, e, p =>
    match p.peek with
    | none => .ok (e, p)
    | some t =>
      let np := get_precedence t.kind
      if np.toNat ≤ prec.toNat then .ok (e, p)
      else do
        let (e', p') ← parse_infix_expression fuel e np p
        parse_expr_loop fuel prec e' p'

/-- `Parser::parse_prefix_expression`: unary `!` and `-` parse their operand
with `parse_expression()` (that is, from the lowest precedence), anything else
is a primary. -/
def parse_prefix_expression : Nat → Parser → Except ParseErr (Expression × Parser)
  | 0, _ => .error .outOfFuel
  | fuel + 1, p =>
    match p.peek with
    | none => .error (.msg "Expected token for prefix expression but got EOF")
    | some t =>
      match t.kind with
      | .bang => do
        let p1 := p.next_token.2
        let (e, p2) ← parse_expression fuel p1
        return (.prefixExpr .not e, p2)
      | .minus => do
        let p1 := p.next_token.2
        let (e, p2) ← parse_expression fuel p1
        return (.prefixExpr .subtract e, p2)
      | _ => parse_primary fuel p

/-- `Parser::parse_infix_expression`: postfix-shaped tokens are routed to
postfix construction; otherwise consume the operator and parse the right
operand at the operator's own precedence. -/
def parse_infix_expression : Nat → Expression → Precedence → Parser →
    Except ParseErr (Expression × Parser)
  | 0, _, _, _ => .error .outOfFuel
  | fuel + 1, e, prec, p =>
    match p.peek with
    | none => .ok (e, p)
    | some t =>
      match t.kind with
      | .lparen | .lbracket | .increase | .decrease =>
        parse_postfix_expression fuel t e p
      | _ => do
        let p1 := p.next_token.2
        let op := binary_operator t.kind
        if op = .invalid then .error (.msg "Invalid binary operator")
        else do
          let (rhs, p2) ← parse_expression_precedence fuel prec p1
          return (.binaryExpr op e rhs, p2)

/-- `Parser::parse_postfix_expression`. -/
def parse_postfix_expression : Nat → Token → Expression → Parser →
    Except ParseErr (Expression × Parser)
  | 0, _, _, _ => .error .outOfFuel
  | fuel + 1, t, e, p =>
    match t.kind with
    | .lbracket => do
      let (_, p1) ← p.consum_token .lbracket
      let (idx, p2) ← parse_expression fuel p1
      let (_, p3) ← p2.consum_token .rbracket
      return (.indexExpr e idx, p3)
    | .lparen => do
      let (_, p1) ← p.consum_token .lparen
      let (args, p2) ← parse_expr_list fuel .rparen .comma p1
      let (_, p3) ← p2.consum_token .rparen
      return (.callExpr e args, p3)
    | .increase => do
      let (_, p1) ← p.consum_token .increase
      return (.postfixExpr .increase e, p1)
    | .decrease => do
      let (_, p1) ← p.consum_token .decrease
      return (.postfixExpr .decrease e, p1)
    | _ => .ok (e, p)

/-- `Parser::parse_primary`.  The String case strips the quotes and runs the
escape-processing loop; the literal-token keyword case constructs the null
literal (named `UndefinedLiteral` in the source). -/
def parse_primary : Nat → Parser → Except ParseErr (Expression × Parser)
  | 0, _ => .error .outOfFuel
  | fuel + 1, p =>
    match p.peek with
    | none => .error (.msg "Unexpected EOF")
    | some t =>
      match t.kind with
      | .trueKw => .ok (.literal (.booleanLit true), p.next_token.2)
      | .falseKw => .ok (.literal (.booleanLit false), p.next_token.2)
      | .nullKw => .ok (.literal .nullLit, p.next_token.2)
      | .integer => .ok (.literal (.integerLit (stoll t.text)), p.next_token.2)
      | .float => .ok (.literal (.floatLit (stod t.text)), p.next_token.2)
      | .string =>
        let content := t.text.toList.drop 1 |>.dropLast
        .ok (.literal (.stringLit ⟨process_string_escapes content⟩), p.next_token.2)
      | .identifier => .ok (.variableExpr t.text, p.next_token.2)
      | .lparen => do
        let (_, p1) ← p.consum_token .lparen
        let (e, p2) ← parse_expression fuel p1
        let (_, p3) ← p2.consum_token .rparen
        return (e, p3)
      | .lbracket => do
        let (_, p1) ← p.consum_token .lbracket
        let (elems, p2) ← parse_expr_list fuel .rbracket .comma p1
        let (_, p3) ← p2.consum_token .rbracket
        return (.arrayExpr elems, p3)
      | _ => .error (.msg "unexpected token for primary expression")

/-- `Parser::parse_list` instantiated with `parse_expression` elements.  The
source reads the lookahead's kind unconditionally, so a null lookahead is
dereferenced. -/
def parse_expr_list : Nat → TokenKind → TokenKind → Parser →
    Except ParseErr (List Expression × Parser)
  | 0, _, _, _ => .error .outOfFuel
  | fuel + 1, endKind, separator, p =>
    match p.peek with
    | none => .error .nullDeref
    | some t =>
      if t.kind = endKind then .ok ([], p)
      else do
        let (e, p1) ← parse_expression fuel p
        match p1.peek with
        | none => .error .nullDeref
        | some t2 =>
          if t2.kind = endKind then .ok ([e], p1)
          else if t2.kind ≠ separator then
            .error (.expectedSeparator separator endKind)
          else do
            let p2 := p1.next_token.2
            let (rest, p3) ← parse_expr_list fuel endKind separator p2
            return (e :: rest, p3)

/-- `Parser::parse_list` instantiated with `parse_identifier` elements. -/
def parse_ident_list : Nat → TokenKind → TokenKind → Parser →
    Except ParseErr (List String × Parser)
  | 0, _, _, _ => .error .outOfFuel
  | fuel + 1, endKind, separator, p =>
    match p.peek with
    | none => .error .nullDeref
    | some t =>
      if t.kind = endKind then .ok ([], p)
      else do
        let (name, p1) ← p.parse_identifier
        match p1.peek with
        | none => .error .nullDeref
        | some t2 =>
          if t2.kind = endKind then .ok ([name], p1)
          else if t2.kind ≠ separator then
            .error (.expectedSeparator separator endKind)
          else do
            let p2 := p1.next_token.2
            let (rest, p3) ← parse_ident_list fuel endKind separator p2
            return (name :: rest, p3)

end

/-- `Parser::parse` on a source text: construct the parser and run the
collection loop. -/
def Parser.parse (fuel : Nat) (input : String) : Except ParseErr Program :=
  parse_loop fuel (mkParser input.toList) [] []

/-- `Parser::parse_expression` on a source text, as the expression-level tests
drive it. -/
def Parser.parse_expression_input (fuel : Nat) (input : String) :
    Except ParseErr (Expression × Parser) :=
  parse_expression fuel (mkParser input.toList)

/-! ## Runtime values (src/include/object.h, src/src/object.cpp) -/

/-- `ValueKind` from object.h (its first member is printed as `null` by
`value_kind_str`). -/
inductive ValueKind where
  | null
  | boolean
  | integer
  | float
  | string
  | array
  | object
  | userFunction
  | nativeFunction
deriving DecidableEq, Repr

inductive Comparison where
  | equal
  | less
  | greater
deriving DecidableEq, Repr

/-- The boxed `Object` variants reachable in the evaluator.  (No Array object
class exists in the source; array expressions are rejected before a value
could be built.) -/
inductive Value where
  | null
  | boolean (b : Bool)
  | integer (i : Int)
  | float (f : Float)
  | string (s : String)
  | userFunction (name : String)
  | nativeFunction (name : String)

def Value.kind : Value → ValueKind
  | .null => .null
  | .boolean _ => .boolean
  | .integer _ => .integer
  | .float _ => .float
  | .string _ => .string
  | .userFunction _ => .userFunction
  | .nativeFunction _ => .nativeFunction

/-- Runtime failures.  `invalidOperate*` are the `InvalidOperate` constructor
overloads; `runtimeError` is `std::runtime_error`; `badCast` is a failed
`dynamic_cast` to a reference; `undefinedBehavior` marks C++ undefined
behaviour the source can reach (integer division or modulo by zero);
`outOfFuel` marks exhausted recursion fuel. -/
inductive Err where
  | invalidOperate (op : Operator) (lhs rhs : ValueKind)
  | invalidOperateUnary (op : Operator) (operand : ValueKind)
  | invalidOperateMsg (s : String)
  | runtimeError (s : String)
  | badCast
  | undefinedBehavior
  | outOfFuel
deriving DecidableEq, Repr

/-- `Integer::add`. -/
def Integer.add (a : Int) (other : Value) : Except Err Value :=
  match other with
  | .integer b => .ok (.integer (a + b))
  | .float f => .ok (.float (Float.ofInt a + f))
  | _ => .error (.invalidOperate .add .integer other.kind)

/-- `Integer::sub`. -/
def Integer.sub (a : Int) (other : Value) : Except Err Value :=
  match other with
  | .integer b => .ok (.integer (a - b))
  | .float f => .ok (.float (Float.ofInt a - f))
  | _ => .error (.invalidOperate .subtract .integer other.kind)

/-- `Integer::mul`. -/
def Integer.mul (a : Int) (other : Value) : Except Err Value :=
  match other with
  | .integer b => .ok (.integer (a * b))
  | .float f => .ok (.float (Float.ofInt a * f))
  | _ => .error (.invalidOperate .multiply .integer other.kind)

/-- `Integer::div`: C++ `int64_t` division truncates toward zero
(`Int.tdiv`); the source performs it with no zero check, so a zero divisor is
undefined behaviour (on common hosts a SIGFPE trap), not a thrown error.  The
unsupported-kind error names `Operator::Divide` with `ValueKind::Integer`, as
the source spells it. -/
def Integer.div (a : Int) (other : Value) : Except Err Value :=
  match other with
  | .integer b =>
    if b = 0 then .error .undefinedBehavior else .ok (.integer (Int.tdiv a b))
  | .float f => .ok (.float (Float.ofInt a / f))
  | _ => .error (.invalidOperate .divide .integer other.kind)

/-- `Integer::mod`: C++ `%` truncates toward zero (`Int.tmod`); a zero divisor
is undefined behaviour exactly as for division.  The unsupported-kind error
names `Operator::Divide` (so the source spells it, a copy of `div`). -/
def Integer.mod (a : Int) (other : Value) : Except Err Value :=
  match other with
  | .integer b =>
    if b = 0 then .error .undefinedBehavior else .ok (.integer (Int.tmod a b))
  | _ => .error (.invalidOperate .divide .integer other.kind)

/-- `Integer::compare` (the Float arm converts this value to double first,
as the C++ comparison of `int64_t` with `double` does). -/
def Integer.compare (a : Int) (other : Value) : Except Err Comparison :=
  match other with
  | .integer b =>
    if a = b then .ok .equal else if a > b then .ok .greater else .ok .less
  | .float f =>
    if Float.ofInt a == f then .ok .equal
    else if Float.ofInt a > f then .ok .greater
    else .ok .less
  | _ => .error (.invalidOperate .equals .integer other.kind)

/-- `Float::add`. -/
def Float.add' (a : Float) (other : Value) : Except Err Value :=
  match other with
  | .float f => .ok (.float (a + f))
  | .integer b => .ok (.float (a + Float.ofInt b))
  | _ => .error (.invalidOperate .add .float other.kind)

/-- `Float::sub`. -/
def Float.sub' (a : Float) (other : Value) : Except Err Value :=
  match other with
  | .float f => .ok (.float (a - f))
  | .integer b => .ok (.float (a - Float.ofInt b))
  | _ => .error (.invalidOperate .subtract .float other.kind)

/-- `Float::mul`. -/
def Float.mul' (a : Float) (other : Value) : Except Err Value :=
  match other with
  | .float f => .ok (.float (a * f))
  | .integer b => .ok (.float (a * Float.ofInt b))
  | _ => .error (.invalidOperate .multiply .float other.kind)

/-- `Float::div` (IEEE division; no zero check is needed in the source). -/
def Float.div' (a : Float) (other : Value) : Except Err Value :=
  match other with
  | .float f => .ok (.float (a / f))
  | .integer b => .ok (.float (a / Float.ofInt b))
  | _ => .error (.invalidOperate .divide .float other.kind)

/-- `Float::compare`. -/
def Float.compare' (a : Float) (other : Value) : Except Err Comparison :=
  match other with
  | .float f =>
    if a == f then .ok .equal else if a > f then .ok .greater else .ok .less
  | .integer b =>
    if a == Float.ofInt b then .ok .equal
    else if a > Float.ofInt b then .ok .greater
    else .ok .less
  | _ => .error (.invalidOperate .equals .float other.kind)

/-- `String::add`: concatenation with another String only. -/
def String.add' (a : String) (other : Value) : Except Err Value :=
  match other with
  | .string s => .ok (.string (a ++ s))
  | _ => .error (.invalidOperate .add .string other.kind)

/-- `String::compare`: lexicographic. -/
def String.compare' (a : String) (other : Value) : Except Err Comparison :=
  match other with
  | .string s =>
    if a = s then .ok .equal else if s < a then .ok .greater else .ok .less
  | _ => .error (.invalidOperate .equals .string other.kind)

/-- `Null::compare`. -/
def Null.compare (other : Value) : Except Err Comparison :=
  match other with
  | .null => .ok .equal
  | _ => .error (.invalidOperate .equals .null other.kind)

/-- `Boolean::compare`. -/
def Boolean.compare (a : Bool) (other : Value) : Except Err Comparison :=
  match other with
  | .boolean b =>
    if a = b then .ok .equal else if a > b then .ok .greater else .ok .less
  | _ => .error (.invalidOperate .equals .boolean other.kind)

/-- Virtual dispatch of `Object::add`: Integer, Float and String override it,
every other variant falls back to the unsupported-operation base. -/
def Value.add : Value → Value → Except Err Value
  | .integer a, other => Integer.add a other
  | .float a, other => Float.add' a other
  | .string a, other => String.add' a other
  | v, other => .error (.invalidOperate .add v.kind other.kind)

/-- Virtual dispatch of `Object::sub`. -/
def Value.sub : Value → Value → Except Err Value
  | .integer a, other => Integer.sub a other
  | .float a, other => Float.sub' a other
  | v, other => .error (.invalidOperate .subtract v.kind other.kind)

/-- Virtual dispatch of `Object::mul`. -/
def Value.mul : Value → Value → Except Err Value
  | .integer a, other => Integer.mul a other
  | .float a, other => Float.mul' a other
  | v, other => .error (.invalidOperate .multiply v.kind other.kind)

/-- Virtual dispatch of `Object::div`. -/
def Value.div : Value → Value → Except Err Value
  | .integer a, other => Integer.div a other
  | .float a, other => Float.div' a other
  | v, other => .error (.invalidOperate .divide v.kind other.kind)

/-- Virtual dispatch of `Object::mod`: only Integer overrides it. -/
def Value.mod : Value → Value → Except Err Value
  | .integer a, other => Integer.mod a other
  | v, other => .error (.invalidOperate .modulo v.kind other.kind)

/-- Virtual dispatch of `Object::compare`. -/
def Value.compare : Value → Value → Except Err Comparison
  | .null, other => Null.compare other
  | .boolean a, other => Boolean.compare a other
  | .integer a, other => Integer.compare a other
  | .float a, other => Float.compare' a other
  | .string a, other => String.compare' a other
  | v, other => .error (.invalidOperate .equals v.kind other.kind)

/-- Modelled from the spec: `Object::logic_and` is called by the evaluator but
its definition is missing from the source snapshot.  Per the spec, both
operands are already evaluated and the boolean combinator applies only to two
Booleans; any other kinds are a typed unsupported-operation error. -/
def Value.logic_and : Value → Value → Except Err Bool
  | .boolean a, .boolean b => .ok (a && b)
  | v, other => .error (.invalidOperate .logicAnd v.kind other.kind)

/-- Modelled from the spec: `Object::logic_or`, as for `logic_and`. -/
def Value.logic_or : Value → Value → Except Err Bool
  | .boolean a, .boolean b => .ok (a || b)
  | v, other => .error (.invalidOperate .logicOr v.kind other.kind)

/-! ## Scope stack and context (eval.h) -/

/-- `StackFrame`: one scope's name-to-value bindings
(`std::unordered_map`, keys unique within a frame). -/
structure StackFrame where
  locals : List (String × Value)

def StackFrame.find? (f : StackFrame) (name : String) : Option Value :=
  (f.locals.find? (fun b => b.1 == name)).map (fun b => b.2)

/-- `std::unordered_map::insert` on a frame: keep the existing binding when
the key is already present. -/
def StackFrame.insert (f : StackFrame) (name : String) (v : Value) : StackFrame :=
  if (f.find? name).isSome then f else ⟨(name, v) :: f.locals⟩

/-- `std::unordered_map::insert_or_assign` on a frame. -/
def StackFrame.insert_or_assign (f : StackFrame) (name : String) (v : Value) :
    StackFrame :=
  if (f.find? name).isSome then
    ⟨f.locals.map (fun b => if b.1 == name then (name, v) else b)⟩
  else ⟨(name, v) :: f.locals⟩

/-- The `Stack`'s frame vector, innermost frame first (the source keeps the
innermost at the back of a `std::vector` and scans `rbegin` to `rend`, which
is the same head-to-tail order). -/
abbrev Stack := List StackFrame

/-- `Stack::enter_scope`. -/
def Stack.enter_scope (s : Stack) : Stack := ⟨[]⟩ :: s

/-- `Stack::level_scope` (`pop_back`; never called on an empty stack). -/
def Stack.level_scope (s : Stack) : Stack := s.tail

/-- `Stack::insert`: insert into the innermost frame. -/
def Stack.insert (s : Stack) (name : String) (v : Value) : Stack :=
  match s with
  | [] => []
  | f :: rest => f.insert name v :: rest

/-- `Stack::set`: scan innermost to outermost; the first frame that holds the
name gets `insert_or_assign`; a miss everywhere is a runtime error. -/
def Stack.set (s : Stack) (name : String) (v : Value) : Except Err Stack :=
  match s with
  | [] => .error (.runtimeError ("Variable not found: " ++ name))
  | f :: rest =>
    if (f.find? name).isSome then .ok (f.insert_or_assign name v :: rest)
    else do
      let rest' ← Stack.set rest name v
      return f :: rest'

/-- `Stack::lookup`: scan innermost to outermost. -/
def Stack.lookup (s : Stack) (name : String) : Option Value :=
  match s with
  | [] => none
  | f :: rest =>
    match f.find? name with
    | some v => some v
    | none => Stack.lookup rest name

/-- `Context`: the scope stack, the host-supplied read-only environment and
the program's function table. -/
structure Context where
  stack : Stack
  environment : List (String × Value)
  functions : List (String × (List String × Statement))

/-- The `Context(std::shared_ptr<Program>)` constructor: one initial frame,
with every declared function auto-bound into it as a UserFunction value. -/
def Context.ofProgram (prog : Program) : Context :=
  { stack := prog.functions.foldl
      (fun s f => s.insert f.1 (.userFunction f.1)) [⟨[]⟩]
    environment := []
    functions := prog.functions }

/-- The default `Context()` constructor, as the expression-level tests use it:
one empty frame, no environment, no program. -/
def Context.empty : Context := { stack := [⟨[]⟩], environment := [], functions := [] }

def Context.enter_scope (c : Context) : Context := { c with stack := c.stack.enter_scope }

def Context.level_scope (c : Context) : Context := { c with stack := c.stack.level_scope }

def Context.insert_variable (c : Context) (name : String) (v : Value) : Context :=
  { c with stack := c.stack.insert name v }

/-- `Context::get_variable`: the stack first, then the read-only environment,
then a runtime error. -/
def Context.get_variable (c : Context) (name : String) : Except Err Value :=
  match c.stack.lookup name with
  | some v => .ok v
  | none =>
    match c.environment.find? (fun b => b.1 == name) with
    | some b => .ok b.2
    | none => .error (.runtimeError ("Variable not found: " ++ name))

/-- Modelled from the spec: `Context::get_env_variable` is called by the
evaluator but missing from the source snapshot; per the spec an
environment-variable reference reads only the host environment map. -/
def Context.get_env_variable (c : Context) (name : String) : Except Err Value :=
  match c.environment.find? (fun b => b.1 == name) with
  | some b => .ok b.2
  | none => .error (.runtimeError ("Variable not found: " ++ name))

/-- `Context::set_variable`. -/
def Context.set_variable (c : Context) (name : String) (v : Value) :
    Except Err Context := do
  let s ← c.stack.set name v
  return { c with stack := s }

/-- `Context::get_function`: table lookup, null entry is a runtime error. -/
def Context.get_function (c : Context) (name : String) :
    Except Err (List String × Statement) :=
  match c.functions.find? (fun f => f.1 == name) with
  | some f => .ok f.2
  | none => .error (.runtimeError "Function not found")

/-- `ControlFlow`: the statement-evaluation signal. -/
inductive ControlFlow where
  | none
  | breakLoop
  | continueLoop
  | ret (v : Value)

/-! ## Evaluator (src/src/eval.cpp)

Every evaluation function returns `(Except Err result) × Context`: the context
component is the state of `m_context` when the function returns *or throws*,
because a C++ exception unwinds without touching the stack of frames.  A
statement produces a ControlFlow signal, an expression produces a Value. -/

/-- The in-place mutation done by postfix `++`/`--`: the Integer box written
through `Value::as_integer()` is the very box the innermost binding of the
name holds (or the host environment binding when every frame missed). -/
def Context.mutate_variable (c : Context) (name : String) (v : Value) : Context :=
  match c.stack.set name v with
  | .ok s => { c with stack := s }
  | .error _ =>
    { c with environment :=
        c.environment.map (fun b => if b.1 == name then (name, v) else b) }

/-- The non-Assign operator dispatch of `Evaluator::eval(BinaryExpression&)`,
after both operands have been evaluated. -/
def eval_binary_op (op : Operator) (lhs rhs : Value) : Except Err Value :=
  match op with
  | .add => lhs.add rhs
  | .subtract => lhs.sub rhs
  | .multiply => lhs.mul rhs
  | .divide => lhs.div rhs
  | .modulo => lhs.mod rhs
  | .equals => do
    let r ← lhs.compare rhs
    return .boolean (r == .equal)
  | .notEquals => do
    let r ← lhs.compare rhs
    return .boolean (r != .equal)
  | .greaterThan => do
    let r ← lhs.compare rhs
    return .boolean (r == .greater)
  | .greaterThanOrEqual => do
    let r ← lhs.compare rhs
    return .boolean (r == .equal || r == .greater)
  | .lessThan => do
    let r ← lhs.compare rhs
    return .boolean (r == .less)
  | .lessThanOrEqual => do
    let r ← lhs.compare rhs
    return .boolean (r == .equal || r == .less)
  | .logicAnd => do
    let b ← lhs.logic_and rhs
    return .boolean b
  | .logicOr => do
    let b ← lhs.logic_or rhs
    return .boolean b
  | _ => .error (.invalidOperate op lhs.kind rhs.kind)

mutual

/-- `Evaluator::eval(Statement&)` and its per-kind overloads. -/
def eval_stmt : Nat → Statement → Context → Except Err ControlFlow × Context
  | 0, _, c => (.error .outOfFuel, c)
  | fuel + 1, stmt, c =>
    match stmt with
    | .letStmt name value =>
      match value with
      | some e =>
        match eval_expr fuel e c with
        | (.ok v, c') => (.ok .none, c'.insert_variable name v)
        | (.error err, c') => (.error err, c')
      | none => (.ok .none, c.insert_variable name .null)
    | .ifStmt cond thenB elseB =>
      match eval_expr fuel cond c with
      | (.error e, c') => (.error e, c')
      | (.ok v, c') =>
        match v with
        | .boolean b =>
          if b then eval_stmt fuel thenB c'
          else
            match elseB with
            | some s => eval_stmt fuel s c'
            | none => (.ok .none, c')
        | _ => (.error (.invalidOperate .equals .boolean v.kind), c')
    | .forStmt ini cond incr body =>
      match (match ini with
             | some s => eval_stmt fuel s c
             | none => (.ok .none, c)) with
      | (.error e, c') => (.error e, c')
      | (.ok _, c') => eval_for fuel cond incr body c'
    | .blockStmt stmts =>
      match eval_stmt_list fuel stmts c.enter_scope with
      | (.ok ctrl, c') => (.ok ctrl, c'.level_scope)
      | (.error e, c') => (.error e, c')
    | .breakStmt => (.ok .breakLoop, c)
    | .continueStmt => (.ok .continueLoop, c)
    | .emptyStmt => (.ok .none, c)
    | .returnStmt value =>
      match value with
      | some e =>
        match eval_expr fuel e c with
        | (.ok v, c') => (.ok (.ret v), c')
        | (.error err, c') => (.error err, c')
      | none => (.ok (.ret .null), c)
    | .exprStmt e =>
      match eval_expr fuel e c with
      | (.ok _, c') => (.ok .none, c')
      | (.error err, c') => (.error err, c')
    | .fnStmt _ _ _ => (.error (.runtimeError "unimplemented eval"), c)

/-- The statement loop of `Evaluator::eval(BlockStatement&)`: run in order,
stop at the first non-None signal. -/
def eval_stmt_list : Nat → List Statement → Context → Except Err ControlFlow × Context
  | 0, _, c => (.error .outOfFuel, c)
  | _ + 1, [], c => (.ok .none, c)
  | fuel + 1, s :: rest, c =>
    match eval_stmt fuel s c with
    | (.ok .none, c') => eval_stmt_list fuel rest c'
    | (.ok ctrl, c') => (.ok ctrl, c')
    | (.error e, c') => (.error e, c')

/-- The condition step of `Evaluator::eval(ForStatement&)`: an absent
condition is always true; otherwise the loop continues exactly when
`Boolean(true).compare(value)` is Equal. -/
def eval_for_cond : Nat → Option Expression → Context → Except Err Bool × Context
  | 0, _, c => (.error .outOfFuel, c)
  | fuel + 1, cond, c =>
    match cond with
    | none => (.ok true, c)
    | some ce =>
      match eval_expr fuel ce c with
      | (.error e, c') => (.error e, c')
      | (.ok v, c') =>
        match Boolean.compare true v with
        | .error e => (.error e, c')
        | .ok cmp => (.ok (cmp == .equal), c')

/-- The increment step of `Evaluator::eval(ForStatement&)`: an absent
increment does nothing; the value is discarded. -/
def eval_for_incr : Nat → Option Expression → Context → Except Err Value × Context
  | 0, _, c => (.error .outOfFuel, c)
  | fuel + 1, incr, c =>
    match incr with
    | none => (.ok .null, c)
    | some ie => eval_expr fuel ie c

/-- The `while (true)` loop of `Evaluator::eval(ForStatement&)`: condition,
body, then dispatch on the body's signal — Break exits with None, Return
propagates unchanged, anything else falls through to the increment and the
next iteration. -/
def eval_for : Nat → Option Expression → Option Expression → Statement →
    Context → Except Err ControlFlow × Context
  | 0, _, _, _, c => (.error .outOfFuel, c)
  | fuel + 1, cond, incr, body, c =>
    match eval_for_cond fuel cond c with
    | (.error e, c') => (.error e, c')
    | (.ok false, c') => (.ok .none, c')
    | (.ok true, c') =>
      match eval_stmt fuel body c' with
      | (.error e, c2) => (.error e, c2)
      | (.ok .breakLoop, c2) => (.ok .none, c2)
      | (.ok (.ret v), c2) => (.ok (.ret v), c2)
      | (.ok _, c2) =>
        match eval_for_incr fuel incr c2 with
        | (.error e, c3) => (.error e, c3)
        | (.ok _, c3) => eval_for fuel cond incr body c3

/-- `Evaluator::eval(Expression&)` and its per-kind overloads. -/
def eval_expr : Nat → Expression → Context → Except Err Value × Context
  | 0, _, c => (.error .outOfFuel, c)
  | fuel + 1, expr, c =>
    match expr with
    | .literal l =>
      match l with
      | .nullLit => (.ok .null, c)
      | .booleanLit b => (.ok (.boolean b), c)
      | .integerLit i => (.ok (.integer i), c)
      | .floatLit f => (.ok (.float f), c)
      | .stringLit s => (.ok (.string s), c)
    | .variableExpr name => (c.get_variable name, c)
    | .envVariableExpr name => (c.get_env_variable name, c)
    | .binaryExpr op l r =>
      match eval_expr fuel l c with
      | (.error e, c1) => (.error e, c1)
      | (.ok lv, c1) =>
        match eval_expr fuel r c1 with
        | (.error e, c2) => (.error e, c2)
        | (.ok rv, c2) =>
          match op with
          | .assign =>
            match l with
            | .variableExpr name =>
              match c2.set_variable name rv with
              | .ok c3 => (.ok rv, c3)
              | .error e => (.error e, c2)
            | _ => (.error (.invalidOperateMsg "Invalid assignment target"), c2)
          | _ => (eval_binary_op op lv rv, c2)
    | .prefixExpr op e =>
      match eval_expr fuel e c with
      | (.error err, c1) => (.error err, c1)
      | (.ok v, c1) =>
        match op with
        | .subtract =>
          match v with
          | .integer i => (.ok (.integer (-i)), c1)
          | .float f => (.ok (.float (-f)), c1)
          | _ => (.error (.invalidOperateUnary .subtract v.kind), c1)
        | .not =>
          match v with
          | .boolean b => (.ok (.boolean (!b)), c1)
          | _ => (.error (.invalidOperateUnary .not v.kind), c1)
        | _ => (.error (.invalidOperateUnary op v.kind), c1)
    | .postfixExpr op e =>
      match eval_expr fuel e c with
      | (.error err, c1) => (.error err, c1)
      | (.ok v, c1) =>
        match op with
        | .increase =>
          match v with
          | .integer i =>
            match e with
            | .variableExpr name =>
              (.ok (.integer (i + 1)), c1.mutate_variable name (.integer (i + 1)))
            | _ => (.error .badCast, c1)
          | _ => (.error (.invalidOperateUnary .increase v.kind), c1)
        | .decrease =>
          match v with
          | .integer i =>
            match e with
            | .variableExpr name =>
              (.ok (.integer (i - 1)), c1.mutate_variable name (.integer (i - 1)))
            | _ => (.error .badCast, c1)
          | _ => (.error (.invalidOperateUnary .decrease v.kind), c1)
        | _ => (.error (.invalidOperateUnary op v.kind), c1)
    | .callExpr callee args =>
      match eval_expr fuel callee c with
      | (.error e, c1) => (.error e, c1)
      | (.ok calleeV, c1) =>
        match calleeV with
        | .userFunction name =>
          match eval_expr_list fuel args c1 with
          | (.error e, c2) => (.error e, c2)
          | (.ok argVals, c2) =>
            match c2.get_function name with
            | .error e => (.error e, c2)
            | .ok (params, body) => eval_call fuel params body argVals c2
        | .nativeFunction _ =>
          match eval_expr_list fuel args c1 with
          | (.error e, c2) => (.error e, c2)
          | (.ok argVals, c2) =>
            -- the source forwards `args[0]` to the host callback; an empty
            -- argument vector indexes out of bounds, and the callback itself
            -- lies outside the modelled boundary
            if argVals.isEmpty then (.error .undefinedBehavior, c2)
            else (.error (.runtimeError "native function call crosses the host boundary"), c2)
        | _ => (.error (.invalidOperateMsg "Invalid call"), c1)
    | .indexExpr _ _ => (.error (.runtimeError "unimplemented for eval"), c)
    | .arrayExpr _ => (.error (.runtimeError "unimplemented for eval"), c)

/-- The argument loop of `Evaluator::eval(CallExpression&)`: left to right. -/
def eval_expr_list : Nat → List Expression → Context → Except Err (List Value) × Context
  | 0, _, c => (.error .outOfFuel, c)
  | _ + 1, [], c => (.ok [], c)
  | fuel + 1, e :: rest, c =>
    match eval_expr fuel e c with
    | (.error err, c') => (.error err, c')
    | (.ok v, c') =>
      match eval_expr_list fuel rest c' with
      | (.error err, c'') => (.error err, c'')
      | (.ok vs, c'') => (.ok (v :: vs), c'')

/-- `Evaluator::eval_call(FnStatement&, args)`: arity check, push a frame,
bind parameters positionally, evaluate the body, pop the frame, unwrap a
Return signal to its value or default to Null.  When the body throws, the
error propagates without the pop. -/
def eval_call : Nat → List String → Statement → List Value → Context →
    Except Err Value × Context
  | 0, _, _, _, c => (.error .outOfFuel, c)
  | fuel + 1, params, body, args, c =>
    if params.length ≠ args.length then (.error (.invalidOperateMsg "Invalid call"), c)
    else
      let c1 := (params.zip args).foldl
        (fun acc pa => acc.insert_variable pa.1 pa.2) c.enter_scope
      match eval_stmt fuel body c1 with
      | (.error e, c2) => (.error e, c2)
      | (.ok ctrl, c2) =>
        match ctrl with
        | .ret v => (.ok v, c2.level_scope)
        | _ => (.ok Value.null, c2.level_scope)

end

/-- `Evaluator::eval()`: top-level statements in order; the first Return
signal yields its value; falling off the end yields Null. -/
def eval_program_stmts (fuel : Nat) :
    List Statement → Context → Except Err Value × Context
  | [], c => (.ok .null, c)
  | s :: rest, c =>
    match eval_stmt fuel s c with
    | (.ok (.ret v), c') => (.ok v, c')
    | (.ok _, c') => eval_program_stmts fuel rest c'
    | (.error e, c') => (.error e, c')

/-- The outcome of driving the whole pipeline on a source text. -/
inductive RunResult where
  | parseError (e : ParseErr)
  | evalError (e : Err)
  | value (v : Value)

/-- Parse a program, build its Context (functions auto-bound) and evaluate,
as the program-level tests drive the system. -/
def run_program (fuel : Nat) (input : String) : RunResult :=
  match Parser.parse fuel input with
  | .error e => .parseError e
  | .ok prog =>
    match eval_program_stmts fuel prog.statements (Context.ofProgram prog) with
    | (.ok v, _) => .value v
    | (.error e, _) => .evalError e

/-- Parse a single expression and evaluate it in a default Context, as the
expression-level tests drive the system. -/
def run_expression (fuel : Nat) (input : String) : RunResult :=
  match Parser.parse_expression_input fuel input with
  | .error e => .parseError e
  | .ok (e, _) =>
    match eval_expr fuel e Context.empty with
    | (.ok v, _) => .value v
    | (.error err, _) => .evalError err

/-! ## Theorems -/

/-- C1: evaluating `2 + 3 * 5` yields Integer 17, `(2 + 3) * 5` yields
Integer 25, and `4 * (6 - (2 + 1))` yields Integer 12 — multiplicative
operators bind tighter than additive ones and parentheses override
precedence — and Integer-with-Integer addition, subtraction and
multiplication always stay Integer. -/
theorem C1_precedence_and_integer_arithmetic :
    run_expression 100 "2 + 3 * 5" = .value (.integer 17) ∧
    run_expression 100 "(2 + 3) * 5" = .value (.integer 25) ∧
    run_expression 100 "4 * (6 - (2 + 1))" = .value (.integer 12) ∧
    (∀ a b : Int, Integer.add a (.integer b) = .ok (.integer (a + b))) ∧
    (∀ a b : Int, Integer.sub a (.integer b) = .ok (.integer (a - b))) ∧
    (∀ a b : Int, Integer.mul a (.integer b) = .ok (.integer (a * b))) ∧
    (∀ a b : Int, b ≠ 0 →
      Integer.div a (.integer b) = .ok (.integer (Int.tdiv a b))) ∧
    (∀ a b : Int, b ≠ 0 →
      Integer.mod a (.integer b) = .ok (.integer (Int.tmod a b))) := by
  refine ⟨rfl, rfl, rfl, fun a b => rfl, fun a b => rfl, fun a b => rfl, ?_, ?_⟩ <;>
    intro a b h <;> simp [Integer.div, Integer.mod, h]

/-- C1 witness: the Integer-stays-Integer facts applied concretely, including
truncating division and modulo with a nonzero divisor. -/
theorem C1_witness :
    ((2 : Int) ≠ 0 ∧ Integer.div (-7) (.integer 2) = .ok (.integer (-3))) ∧
    Integer.mod (-7) (.integer 2) = .ok (.integer (-1)) := by
  refine ⟨⟨by decide, ?_⟩, ?_⟩
  · exact C1_precedence_and_integer_arithmetic.2.2.2.2.2.2.1 (-7) 2 (by decide)
  · exact C1_precedence_and_integer_arithmetic.2.2.2.2.2.2.2 (-7) 2 (by decide)

/-- C5 (evaluation of the code at the failing inputs): `Integer::div` and
`Integer::mod` perform the host division with no zero check, so a zero
divisor is C++ undefined behaviour (a process trap on common hosts), not a
typed arithmetic error surfaced to the caller; the whole pipeline on
`1 / 0` and `1 % 0` reaches that undefined behaviour. -/
theorem C5_zero_divisor_is_undefined_behavior :
    (∀ a : Int, Integer.div a (.integer 0) = .error .undefinedBehavior) ∧
    (∀ a : Int, Integer.mod a (.integer 0) = .error .undefinedBehavior) ∧
    run_expression 100 "1 / 0" = .evalError .undefinedBehavior ∧
    run_expression 100 "1 % 0" = .evalError .undefinedBehavior := by
  refine ⟨?_, ?_, rfl, rfl⟩ <;> intro a <;> rfl

/-- C6 (counterexample): `-2 + 3` does not evaluate to Integer 1; the
parser gives the unary minus the whole following expression as its operand,
so the result is Integer -5. -/
theorem C6_counterexample_prefix_binds_loosest :
    run_expression 100 "-2 + 3" = .value (.integer (-5)) := rfl

/-- C6 (amended): the precedence table does place Prefix above Term, but
`Parser::parse_prefix_expression` parses the operand of unary `-`/`!` with
`parse_expression()` — from the lowest precedence — so `-a + b` parses as the
negation of the whole sum `a + b`, and `-2 + 3` evaluates to Integer -5. -/
theorem C6_amended_prefix_operand_is_full_expression :
    Precedence.toNat .term < Precedence.toNat .prefixOp ∧
    (Parser.parse_expression_input 100 "-a + b").map (fun r => r.1) =
      .ok (.prefixExpr .subtract
        (.binaryExpr .add (.variableExpr "a") (.variableExpr "b"))) ∧
    run_expression 100 "-2 + 3" = .value (.integer (-5)) := by
  exact ⟨by decide, rfl, rfl⟩

/-- C7 (evaluation of the code at the failing input): the escape-processing
loop of `Parser::parse_primary` pushes the decoded escape character and then
falls through to the unconditional push of the raw character, so the source
literal `"a\nb"` denotes the four characters a, newline, n, b (not the three
the claim states); a `\\` escape contributes two backslashes, and an unknown
escape `\q` contributes backslash, q, q. -/
theorem C7_escape_processing_pushes_twice :
    process_string_escapes ['a', '\\', 'n', 'b'] = ['a', '\n', 'n', 'b'] ∧
    (Parser.parse_expression_input 100 "\"a\\nb\"").map (fun r => r.1) =
      .ok (.literal (.stringLit "a\nnb")) ∧
    process_string_escapes ['\\', '\\'] = ['\\', '\\'] ∧
    process_string_escapes ['\\', 'q'] = ['\\', 'q', 'q'] ∧
    process_string_escapes ['a', 'b'] = ['a', 'b'] := by
  exact ⟨rfl, rfl, rfl, rfl, rfl⟩

/-- C10: a `let` that rebinds a name already bound in the innermost frame
goes through `std::unordered_map::insert`, which keeps the existing entry:
after `let x = 1; let x = 2;` in the same frame, `x` is still 1, and no
error is raised; in general an insert into a stack whose innermost frame
already binds the name leaves the stack unchanged. -/
theorem C10_let_rebinding_keeps_first_binding :
    run_program 100 "let x = 1; let x = 2; return x;" = .value (.integer 1) ∧
    (∀ (f : StackFrame) (rest : Stack) (name : String) (v : Value),
      (f.find? name).isSome = true → Stack.insert (f :: rest) name v = f :: rest) := by
  refine ⟨rfl, ?_⟩
  intro f rest name v h
  simp [Stack.insert, StackFrame.insert, h]

/-- C10 witness: the general part applied to a one-frame stack that already
binds `x`. -/
theorem C10_witness :
    ((StackFrame.mk [("x", Value.integer 1)]).find? "x").isSome = true ∧
    Stack.insert [⟨[("x", Value.integer 1)]⟩] "x" (Value.integer 2) =
      [⟨[("x", Value.integer 1)]⟩] :=
  ⟨rfl, C10_let_rebinding_keeps_first_binding.2
    ⟨[("x", Value.integer 1)]⟩ [] "x" (Value.integer 2) rfl⟩

/-- On the input `;` the parser's collection loop makes no progress: the
Semicolon case of `parse_statement` returns an EmptyStatement without
consuming the token, so every fuel level is spent re-reading the same
lookahead. -/
theorem parse_loop_semicolon_diverges :
    ∀ (fuel : Nat) (stmts : List Statement)
      (fns : List (String × (List String × Statement))),
      parse_loop fuel (mkParser ";".toList) stmts fns = .error .outOfFuel := by
  intro fuel
  induction fuel with
  | zero => intro stmts fns; rfl
  | succ g ih =>
    intro stmts fns
    cases g with
    | zero => rfl
    | succ k => exact ih (Statement.emptyStmt :: stmts) fns

/-- C9 (evaluation of the code at the failing input): `Parser::parse` does
not terminate on the bare statement `;` — the Semicolon case of
`parse_statement` produces an EmptyStatement without consuming the
semicolon, so the collection loop re-reads the same token forever; for every
amount of fuel the embedded parse of `";"` exhausts it instead of returning
a Program or a parse error. -/
theorem C9_parse_of_bare_semicolon_never_terminates :
    ∀ fuel : Nat, Parser.parse fuel ";" = .error .outOfFuel := by
  intro fuel
  exact parse_loop_semicolon_diverges fuel [] []

/-- C4 (counterexample): a variable bound in a caller's function frame *is*
visible inside the called function's body — `g` reads `y`, which is bound
only in `f`'s frame, and the program evaluates to the caller's value 7
instead of raising an undefined-variable error. -/
theorem C4_counterexample_caller_binding_visible :
    run_program 100
      "fn g(){ return y; } fn f(){ let y = 7; return g(); } return f();" =
      .value (.integer 7) := rfl

/-- C4 (amended): variable resolution scans every live frame of the one
scope stack innermost-to-outermost — a function call pushes its frame onto
the same stack, so the caller's block and function frames are scanned too —
then falls back to the host environment; a name bound in a caller's frame
resolves to the caller's value (dynamic scoping), and an undefined-variable
error is raised only when no frame and no environment binding holds the
name. -/
theorem C4_amended_lookup_is_dynamic_scoping :
    run_program 100
      "fn g(){ return y; } fn f(){ let y = 7; return g(); } return f();" =
      .value (.integer 7) ∧
    (∀ (c : Context) (name : String) (v : Value),
      c.stack.lookup name = some v → c.get_variable name = .ok v) ∧
    (∀ (f : StackFrame) (rest : Stack) (name : String),
      f.find? name = none → Stack.lookup (f :: rest) name = Stack.lookup rest name) ∧
    (∀ (c : Context) (name : String),
      c.stack.lookup name = none →
      c.environment.find? (fun b => b.1 == name) = none →
      c.get_variable name = .error (.runtimeError ("Variable not found: " ++ name))) := by
  refine ⟨rfl, ?_, ?_, ?_⟩
  · intro c name v h
    simp [Context.get_variable, h]
  · intro f rest name h
    simp [Stack.lookup, h]
  · intro c name h1 h2
    simp [Context.get_variable, h1, h2]

/-- C4 witness: the stack holds the callee's empty frame above a caller frame
binding `y`; lookup and `get_variable` both resolve to the caller's value,
and a name bound nowhere raises the undefined-variable error. -/
theorem C4_witness :
    (Context.mk [⟨[]⟩, ⟨[("y", Value.integer 7)]⟩] [] []).get_variable "y" =
      .ok (Value.integer 7) ∧
    (Context.mk [⟨[]⟩] [] []).get_variable "z" =
      .error (.runtimeError "Variable not found: z") := by
  constructor
  · exact C4_amended_lookup_is_dynamic_scoping.2.1
      (Context.mk [⟨[]⟩, ⟨[("y", Value.integer 7)]⟩] [] []) "y" (Value.integer 7) rfl
  · exact C4_amended_lookup_is_dynamic_scoping.2.2.2
      (Context.mk [⟨[]⟩] [] []) "z" rfl rfl

/-- C2: the recursive fibonacci program evaluates to Integer 55, and
user-function invocation behaves as claimed: an argument count different
from the parameter count is an error; otherwise a new frame is pushed, the
parameters are bound positionally into it, the body is evaluated, the frame
is popped, and a Return signal is unwrapped to its value while any other
signal defaults to Null. -/
theorem C2_recursion_and_function_invocation :
    run_program 1000
      "fn fib(n){ if(n<=1){return n;} return fib(n-1)+fib(n-2);} return fib(10);" =
      .value (.integer 55) ∧
    (∀ (fuel : Nat) (params : List String) (body : Statement)
       (args : List Value) (c : Context),
      params.length ≠ args.length →
      eval_call (fuel + 1) params body args c =
        (.error (.invalidOperateMsg "Invalid call"), c)) ∧
    (∀ (fuel : Nat) (params : List String) (body : Statement)
       (args : List Value) (c : Context) (ctrl : ControlFlow) (c2 : Context),
      params.length = args.length →
      eval_stmt fuel body
        ((params.zip args).foldl
          (fun acc pa => acc.insert_variable pa.1 pa.2) c.enter_scope) =
        (.ok ctrl, c2) →
      eval_call (fuel + 1) params body args c =
        (.ok (match ctrl with | .ret v => v | _ => Value.null), c2.level_scope)) := by
  refine ⟨rfl, ?_, ?_⟩
  · intro fuel params body args c h
    simp [eval_call, h]
  · intro fuel params body args c ctrl c2 hlen hbody
    simp [eval_call, hbody]
    rw [if_pos hlen]
    cases ctrl <;> rfl

/-- C2 witness: the invocation contract applied concretely — calling a
one-parameter function with no arguments is the arity error, and calling it
with one argument runs the body in a fresh frame holding the parameter and
pops that frame again (an empty body defaults to Null). -/
theorem C2_witness :
    eval_call 2 ["n"] Statement.emptyStmt [] Context.empty =
      (.error (.invalidOperateMsg "Invalid call"), Context.empty) ∧
    eval_call 2 ["n"] Statement.emptyStmt [Value.integer 5] Context.empty =
      (.ok Value.null,
        ((Context.empty.enter_scope).insert_variable "n" (Value.integer 5)).level_scope) := by
  constructor
  · exact C2_recursion_and_function_invocation.2.1 1 ["n"]
      Statement.emptyStmt [] Context.empty (by decide)
  · exact C2_recursion_and_function_invocation.2.2 1 ["n"]
      Statement.emptyStmt [Value.integer 5] Context.empty .none
      ((Context.empty.enter_scope).insert_variable "n" (Value.integer 5)) rfl rfl

/-- C3: the break-based loop program evaluates to Integer 3, and the
for-loop body's signal is dispatched as claimed: when the condition held and
the body produced Break, the loop exits at once with a None signal; a Return
signal propagates out unchanged; a None or Continue signal falls through to
the increment expression, after which the loop repeats. -/
theorem C3_for_loop_signal_dispatch :
    run_program 100
      "let sum=0; for(let i=1;i<=5;i=i+1){ if(i==3){break;} sum=sum+i;} return sum;" =
      .value (.integer 3) ∧
    (∀ (fuel : Nat) (cond incr : Option Expression) (body : Statement)
       (c c1 c2 : Context),
      eval_for_cond fuel cond c = (.ok true, c1) →
      eval_stmt fuel body c1 = (.ok .breakLoop, c2) →
      eval_for (fuel + 1) cond incr body c = (.ok .none, c2)) ∧
    (∀ (fuel : Nat) (cond incr : Option Expression) (body : Statement)
       (c c1 c2 : Context) (v : Value),
      eval_for_cond fuel cond c = (.ok true, c1) →
      eval_stmt fuel body c1 = (.ok (.ret v), c2) →
      eval_for (fuel + 1) cond incr body c = (.ok (.ret v), c2)) ∧
    (∀ (fuel : Nat) (cond incr : Option Expression) (body : Statement)
       (c c1 c2 c3 : Context) (ctrl : ControlFlow) (v : Value),
      eval_for_cond fuel cond c = (.ok true, c1) →
      eval_stmt fuel body c1 = (.ok ctrl, c2) →
      (ctrl = .none ∨ ctrl = .continueLoop) →
      eval_for_incr fuel incr c2 = (.ok v, c3) →
      eval_for (fuel + 1) cond incr body c = eval_for fuel cond incr body c3) := by
  refine ⟨rfl, ?_, ?_, ?_⟩
  · intro fuel cond incr body c c1 c2 h1 h2
    simp [eval_for, h1, h2]
  · intro fuel cond incr body c c1 c2 v h1 h2
    simp [eval_for, h1, h2]
  · intro fuel cond incr body c c1 c2 c3 ctrl v h1 h2 hc h3
    rcases hc with h | h <;> subst h <;> simp [eval_for, h1, h2, h3]

/-- C3 witness: the dispatch applied concretely — a body that is a bare
`break` exits the loop with None, and a body that is an empty statement
falls through to the (absent) increment and iterates. -/
theorem C3_witness :
    eval_for 3 none none Statement.breakStmt Context.empty =
      (.ok .none, Context.empty) ∧
    eval_for 3 none none Statement.emptyStmt Context.empty =
      eval_for 2 none none Statement.emptyStmt Context.empty := by
  constructor
  · exact C3_for_loop_signal_dispatch.2.1 2 none none Statement.breakStmt
      Context.empty Context.empty Context.empty rfl rfl
  · exact C3_for_loop_signal_dispatch.2.2.2 2 none none Statement.emptyStmt
      Context.empty Context.empty Context.empty Context.empty .none .null
      rfl rfl (Or.inl rfl) rfl

theorem stack_insert_length (s : Stack) (name : String) (v : Value) :
    (Stack.insert s name v).length = s.length := by
  cases s <;> rfl

theorem stack_set_length : ∀ (s : Stack) (name : String) (v : Value) (s' : Stack),
    Stack.set s name v = .ok s' → s'.length = s.length := by
  intro s name v
  induction s with
  | nil => intro s' h; simp [Stack.set] at h
  | cons f rest ih =>
    intro s' h
    simp only [Stack.set] at h
    split at h
    · simp only [Except.ok.injEq] at h
      subst h
      rfl
    · cases hrec : Stack.set rest name v with
      | error e => rw [hrec] at h; simp [Except.bind] at h
      | ok r =>
        rw [hrec] at h
        simp only [Except.bind, Except.ok.injEq, bind, pure, Except.pure] at h
        subst h
        simp [ih r hrec]

theorem context_insert_variable_length (c : Context) (name : String) (v : Value) :
    (c.insert_variable name v).stack.length = c.stack.length :=
  stack_insert_length c.stack name v

theorem context_set_variable_length (c : Context) (name : String) (v : Value)
    (c' : Context) (h : c.set_variable name v = .ok c') :
    c'.stack.length = c.stack.length := by
  simp only [Context.set_variable] at h
  cases hs : Stack.set c.stack name v with
  | error e => rw [hs] at h; simp [Except.bind, bind] at h
  | ok s =>
    rw [hs] at h
    simp only [Except.bind, bind, pure, Except.pure, Except.ok.injEq] at h
    subst h
    exact stack_set_length c.stack name v s hs

theorem context_mutate_variable_length (c : Context) (name : String) (v : Value) :
    (c.mutate_variable name v).stack.length = c.stack.length := by
  simp only [Context.mutate_variable]
  cases hs : Stack.set c.stack name v with
  | error e => rfl
  | ok s => exact stack_set_length c.stack name v s hs

theorem bind_params_length : ∀ (l : List (String × Value)) (c : Context),
    (l.foldl (fun acc pa => acc.insert_variable pa.1 pa.2) c).stack.length =
      c.stack.length := by
  intro l
  induction l with
  | nil => intro c; rfl
  | cons p rest ih =>
    intro c
    simp only [List.foldl_cons]
    rw [ih (c.insert_variable p.1 p.2)]
    exact context_insert_variable_length c p.1 p.2

theorem eval_ok_preserves_frames : ∀ fuel : Nat,
    (∀ (s : Statement) (c : Context) (r : ControlFlow) (c' : Context),
      eval_stmt fuel s c = (.ok r, c') → c'.stack.length = c.stack.length) ∧
    (∀ (l : List Statement) (c : Context) (r : ControlFlow) (c' : Context),
      eval_stmt_list fuel l c = (.ok r, c') → c'.stack.length = c.stack.length) ∧
    (∀ (cond : Option Expression) (c : Context) (b : Bool) (c' : Context),
      eval_for_cond fuel cond c = (.ok b, c') → c'.stack.length = c.stack.length) ∧
    (∀ (incr : Option Expression) (c : Context) (v : Value) (c' : Context),
      eval_for_incr fuel incr c = (.ok v, c') → c'.stack.length = c.stack.length) ∧
    (∀ (cond incr : Option Expression) (body : Statement) (c : Context)
       (r : ControlFlow) (c' : Context),
      eval_for fuel cond incr body c = (.ok r, c') → c'.stack.length = c.stack.length) ∧
    (∀ (e : Expression) (c : Context) (v : Value) (c' : Context),
      eval_expr fuel e c = (.ok v, c') → c'.stack.length = c.stack.length) ∧
    (∀ (es : List Expression) (c : Context) (vs : List Value) (c' : Context),
      eval_expr_list fuel es c = (.ok vs, c') → c'.stack.length = c.stack.length) ∧
    (∀ (params : List String) (body : Statement) (args : List Value) (c : Context)
       (v : Value) (c' : Context),
      eval_call fuel params body args c = (.ok v, c') → c'.stack.length = c.stack.length) := by
  intro fuel
  induction fuel with
  | zero =>
    refine ⟨?_, ?_, ?_, ?_, ?_, ?_, ?_, ?_⟩ <;> intros <;> simp_all [eval_stmt,
      eval_stmt_list, eval_for_cond, eval_for_incr, eval_for, eval_expr,
      eval_expr_list, eval_call]
  | succ fuel ih =>
    obtain ⟨ihS, ihL, ihC, ihI, ihF, ihE, ihEL, ihCall⟩ := ih
    refine ⟨?_, ?_, ?_, ?_, ?_, ?_, ?_, ?_⟩
    · -- eval_stmt
      intro s c r c' h
      cases s with
      | letStmt name value =>
        cases value with
        | some e =>
          simp only [eval_stmt] at h
          split at h
          · rename_i v c1 heq
            injection h with h1 h2
            subst h2
            rw [context_insert_variable_length]
            exact ihE _ _ _ _ heq
          · simp at h
        | none =>
          simp only [eval_stmt] at h
          injection h with h1 h2
          subst h2
          exact context_insert_variable_length c name .null
      | ifStmt cond thenB elseB =>
        cases elseB with
        | some s2 =>
          simp only [eval_stmt] at h
          split at h
          · simp at h
          · rename_i v c1 heq
            split at h
            · split at h
              · rw [ihS _ _ _ _ h]
                exact ihE _ _ _ _ heq
              · rw [ihS _ _ _ _ h]
                exact ihE _ _ _ _ heq
            · simp at h
        | none =>
          simp only [eval_stmt] at h
          split at h
          · simp at h
          · rename_i v c1 heq
            split at h
            · split at h
              · rw [ihS _ _ _ _ h]
                exact ihE _ _ _ _ heq
              · injection h with h1 h2
                subst h2
                exact ihE _ _ _ _ heq
            · simp at h
      | forStmt ini cond incr body =>
        cases ini with
        | some s0 =>
          simp only [eval_stmt] at h
          split at h
          · simp at h
          · rename_i u c1 heq
            rw [ihF _ _ _ _ _ _ h]
            exact ihS _ _ _ _ heq
        | none =>
          simp only [eval_stmt] at h
          exact ihF _ _ _ _ _ _ h
      | blockStmt stmts =>
        simp only [eval_stmt] at h
        split at h
        · rename_i ctrl c1 heq
          injection h with h1 h2
          subst h2
          have hlen := ihL _ _ _ _ heq
          simp only [Context.enter_scope, Stack.enter_scope, List.length_cons] at hlen
          simp only [Context.level_scope, Stack.level_scope, List.length_tail]
          omega
        · simp at h
      | breakStmt =>
        simp only [eval_stmt] at h
        injection h with h1 h2
        subst h2
        rfl
      | continueStmt =>
        simp only [eval_stmt] at h
        injection h with h1 h2
        subst h2
        rfl
      | emptyStmt =>
        simp only [eval_stmt] at h
        injection h with h1 h2
        subst h2
        rfl
      | returnStmt value =>
        cases value with
        | some e =>
          simp only [eval_stmt] at h
          split at h
          · rename_i v c1 heq
            injection h with h1 h2
            subst h2
            exact ihE _ _ _ _ heq
          · simp at h
        | none =>
          simp only [eval_stmt] at h
          injection h with h1 h2
          subst h2
          rfl
      | exprStmt e =>
        simp only [eval_stmt] at h
        split at h
        · rename_i v c1 heq
          injection h with h1 h2
          subst h2
          exact ihE _ _ _ _ heq
        · simp at h
      | fnStmt name params body =>
        simp [eval_stmt] at h
    · -- eval_stmt_list
      intro l c r c' h
      cases l with
      | nil =>
        simp only [eval_stmt_list] at h
        injection h with h1 h2
        subst h2
        rfl
      | cons s rest =>
        simp only [eval_stmt_list] at h
        split at h
        · rename_i c1 heq
          rw [ihL _ _ _ _ h]
          exact ihS _ _ _ _ heq
        · rename_i ctrl c1 hne heq
          injection h with h1 h2
          subst h2
          exact ihS _ _ _ _ heq
        · simp at h
    · -- eval_for_cond
      intro cond c b c' h
      cases cond with
      | none =>
        simp only [eval_for_cond] at h
        injection h with h1 h2
        subst h2
        rfl
      | some ce =>
        simp only [eval_for_cond] at h
        split at h
        · simp at h
        · rename_i v c1 heq
          split at h
          · simp at h
          · injection h with h1 h2
            subst h2
            exact ihE _ _ _ _ heq
    · -- eval_for_incr
      intro incr c v c' h
      cases incr with
      | none =>
        simp only [eval_for_incr] at h
        injection h with h1 h2
        subst h2
        rfl
      | some ie =>
        simp only [eval_for_incr] at h
        exact ihE _ _ _ _ h
    · -- eval_for
      intro cond incr body c r c' h
      simp only [eval_for] at h
      split at h
      · simp at h
      · rename_i c1 heq
        injection h with h1 h2
        subst h2
        exact ihC _ _ _ _ heq
      · rename_i c1 heq
        split at h
        · simp at h
        · rename_i c2 heq2
          injection h with h1 h2
          subst h2
          rw [ihS _ _ _ _ heq2]
          exact ihC _ _ _ _ heq
        · rename_i v c2 heq2
          injection h with h1 h2
          subst h2
          rw [ihS _ _ _ _ heq2]
          exact ihC _ _ _ _ heq
        · rename_i ctrl c2 hne1 hne2 heq2
          split at h
          · simp at h
          · rename_i w c3 heq3
            rw [ihF _ _ _ _ _ _ h]
            rw [ihI _ _ _ _ heq3]
            rw [ihS _ _ _ _ heq2]
            exact ihC _ _ _ _ heq
    · -- eval_expr
      intro e c v c' h
      cases e with
      | literal l =>
        cases l <;> simp only [eval_expr] at h <;>
          (injection h with h1 h2; subst h2; rfl)
      | variableExpr name =>
        simp only [eval_expr] at h
        injection h with h1 h2
        subst h2
        rfl
      | envVariableExpr name =>
        simp only [eval_expr] at h
        injection h with h1 h2
        subst h2
        rfl
      | binaryExpr op l r =>
        simp only [eval_expr] at h
        split at h
        · simp at h
        · rename_i lv c1 heq1
          split at h
          · simp at h
          · rename_i rv c2 heq2
            split at h
            · split at h
              · rename_i name
                split at h
                · rename_i c3 hset
                  injection h with h1 h2
                  subst h2
                  rw [context_set_variable_length _ _ _ _ hset]
                  rw [ihE _ _ _ _ heq2]
                  exact ihE _ _ _ _ heq1
                · simp at h
              · simp at h
            · injection h with h1 h2
              subst h2
              rw [ihE _ _ _ _ heq2]
              exact ihE _ _ _ _ heq1
      | prefixExpr op e0 =>
        simp only [eval_expr] at h
        split at h
        · simp at h
        · rename_i v0 c1 heq
          split at h
          all_goals first
          | (exfalso; simp at h; done)
          | (split at h
             all_goals first
             | (exfalso; simp at h; done)
             | (injection h with h1 h2
                subst h2
                exact ihE _ _ _ _ heq))
      | postfixExpr op e0 =>
        simp only [eval_expr] at h
        split at h
        · simp at h
        · rename_i v0 c1 heq
          split at h
          all_goals first
          | (exfalso; simp at h; done)
          | (split at h
             all_goals first
             | (exfalso; simp at h; done)
             | (split at h
                all_goals first
                | (exfalso; simp at h; done)
                | (injection h with h1 h2
                   subst h2
                   rw [context_mutate_variable_length]
                   exact ihE _ _ _ _ heq)))
      | callExpr callee args =>
        simp only [eval_expr] at h
        split at h
        · simp at h
        · rename_i calleeV c1 heq1
          split at h
          · rename_i fname
            split at h
            · simp at h
            · rename_i argVals c2 heq2
              split at h
              · simp at h
              · rename_i params body hget
                rw [ihCall _ _ _ _ _ _ h]
                rw [ihEL _ _ _ _ heq2]
                exact ihE _ _ _ _ heq1
          · rename_i fname
            split at h
            · simp at h
            · rename_i argVals c2 heq2
              split at h
              · simp at h
              · simp at h
          · simp at h
      | indexExpr o i =>
        simp [eval_expr] at h
      | arrayExpr elems =>
        simp [eval_expr] at h
    · -- eval_expr_list
      intro es c vs c' h
      cases es with
      | nil =>
        simp only [eval_expr_list] at h
        injection h with h1 h2
        subst h2
        rfl
      | cons e rest =>
        simp only [eval_expr_list] at h
        split at h
        · simp at h
        · rename_i v0 c1 heq
          split at h
          · simp at h
          · rename_i vs0 c2 heq2
            injection h with h1 h2
            subst h2
            rw [ihEL _ _ _ _ heq2]
            exact ihE _ _ _ _ heq
    · -- eval_call
      intro params body args c v c' h
      simp only [eval_call] at h
      split at h
      · simp at h
      · rename_i hlen
        split at h
        · simp at h
        · rename_i ctrl c2 heq
          have hbody := ihS _ _ _ _ heq
          rw [bind_params_length] at hbody
          simp only [Context.enter_scope, Stack.enter_scope, List.length_cons] at hbody
          split at h
          · rename_i v0
            injection h with h1 h2
            subst h2
            simp only [Context.level_scope, Stack.level_scope, List.length_tail]
            omega
          · injection h with h1 h2
            subst h2
            simp only [Context.level_scope, Stack.level_scope, List.length_tail]
            omega

/-- C8 (counterexample): an error raised inside a block propagates without the
frame pop — evaluating a block whose statement adds Integer and Boolean raises
the typed error, and afterwards the stack holds 2 frames where it held 1
before the block was entered, so the push/pop pairing is broken on the error
exit path. -/
theorem C8_counterexample_error_leaks_frame :
    (eval_stmt 10
      (.blockStmt [.exprStmt (.binaryExpr .add
        (.literal (.integerLit 1)) (.literal (.booleanLit true)))])
      Context.empty).1 = .error (.invalidOperate .add .integer .boolean) ∧
    (eval_stmt 10
      (.blockStmt [.exprStmt (.binaryExpr .add
        (.literal (.integerLit 1)) (.literal (.booleanLit true)))])
      Context.empty).2.stack.length = 2 ∧
    Context.empty.stack.length = 1 := ⟨rfl, rfl, rfl⟩

/-- C8 (amended): frame pushes and pops are paired on every *non-error* exit
path — whenever evaluation of any statement or any expression returns a
result (a control-flow signal or a value) rather than raising, the stack
afterwards holds exactly as many frames as before — but when an error
propagates out of a block or call the pushed frame is not popped, and the
stack ends with more frames than it started with (concretely: 2 frames where
1 was entered). -/
theorem C8_amended_frames_paired_on_ok_paths :
    (∀ (fuel : Nat) (s : Statement) (c : Context) (r : ControlFlow) (c' : Context),
      eval_stmt fuel s c = (.ok r, c') → c'.stack.length = c.stack.length) ∧
    (∀ (fuel : Nat) (e : Expression) (c : Context) (v : Value) (c' : Context),
      eval_expr fuel e c = (.ok v, c') → c'.stack.length = c.stack.length) ∧
    (eval_stmt 10
      (.blockStmt [.exprStmt (.binaryExpr .add
        (.literal (.integerLit 1)) (.literal (.booleanLit true)))])
      Context.empty).2.stack.length = Context.empty.stack.length + 1 := by
  refine ⟨?_, ?_, rfl⟩
  · intro fuel
    exact (eval_ok_preserves_frames fuel).1
  · intro fuel
    exact (eval_ok_preserves_frames fuel).2.2.2.2.2.1

/-- C8 witness: the pairing applied concretely — an empty statement evaluates
without touching the stack, and a block statement that completes normally
restores the single initial frame. -/
theorem C8_witness :
    eval_stmt 2 Statement.emptyStmt Context.empty = (.ok .none, Context.empty) ∧
    Context.empty.stack.length = Context.empty.stack.length ∧
    eval_stmt 3 (Statement.blockStmt []) Context.empty =
      (.ok .none, Context.empty) ∧
    (Context.empty : Context).stack.length = Context.empty.stack.length := by
  refine ⟨rfl, ?_, rfl, ?_⟩
  · exact C8_amended_frames_paired_on_ok_paths.1 2 Statement.emptyStmt
      Context.empty .none Context.empty rfl
  · exact C8_amended_frames_paired_on_ok_paths.1 3 (Statement.blockStmt [])
      Context.empty .none Context.empty rfl

end ExprCpp
